import Mathlib

/-!
Verification development for the Grokipedia CLI core subsystems:
the file-based cache store (internal/cache), the key canonicalizer
(Cache.GenerateKey), and the retrying request executor
(internal/api/client.go, doRequest).

The Go code is shallowly embedded: file-system state is an explicit
map from paths to optional contents, the HTTP transport is an oracle
assigning each attempt index its outcome, and the RNG used for
backoff jitter is an injected function.
-/

/- ### Cache store (internal/cache, `Cache`, `Get`, `Set`) -/

/-- Contents of a metadata file as seen by `json.Unmarshal` into
`CacheMetadata`: either it parses to a `{created_at, ttl}` record,
or it is garbage that fails to parse. -/
inductive MetaContent where
  | valid (createdAt : Int) (ttl : Int)
  | garbage (raw : String)
deriving DecidableEq

/-- The slice of the file system the cache touches: payload (`.json`)
files and metadata (`.meta`) files, each addressed by full path.
`none` models an absent file. -/
structure FileSys where
  dataFile : String → Option (List Nat)
  metaFile : String → Option MetaContent

def FileSys.writeData (fs : FileSys) (p : String) (d : List Nat) : FileSys :=
  { fs with dataFile := fun q => if q = p then some d else fs.dataFile q }

def FileSys.removeData (fs : FileSys) (p : String) : FileSys :=
  { fs with dataFile := fun q => if q = p then none else fs.dataFile q }

def FileSys.writeMeta (fs : FileSys) (p : String) (m : MetaContent) : FileSys :=
  { fs with metaFile := fun q => if q = p then some m else fs.metaFile q }

def FileSys.removeMeta (fs : FileSys) (p : String) : FileSys :=
  { fs with metaFile := fun q => if q = p then none else fs.metaFile q }

/-- The empty file system: no file exists. -/
def FileSys.empty : FileSys := ⟨fun _ => none, fun _ => none⟩

/-- `Cache` struct: directory and TTL in seconds (Go `int`). -/
structure Cache where
  dir : String
  ttl : Int

/-- `filepath.Join(c.dir, key+".json")`. -/
def dataPath (dir key : String) : String := dir ++ "/" ++ key ++ ".json"

/-- `filepath.Join(c.dir, key+".meta")`. -/
def metaPath (dir key : String) : String := dir ++ "/" ++ key ++ ".meta"

/-- `Cache.Get`: embedding of cache.go `Get`. `now` is
`time.Now().Unix()`. Returns (payload, found, file system after the
call), mirroring the Go return `([]byte, bool)` plus the side effects
of the `os.Remove` calls. -/
def Cache.Get (c : Cache) (now : Int) (fs : FileSys) (key : String) :
    Option (List Nat) × Bool × FileSys :=
  let dp := dataPath c.dir key
  let mp := metaPath c.dir key
  match fs.dataFile dp with
  | none => (none, false, fs)
  | some data =>
    match fs.metaFile mp with
    | none =>
      -- Metadata missing, treat as expired
      (none, false, fs.removeData dp)
    | some (MetaContent.garbage _) =>
      -- Corrupt metadata, delete files
      (none, false, (fs.removeData dp).removeMeta mp)
    | some (MetaContent.valid createdAt ttl) =>
      if c.ttl > 0 then
        let age := now - createdAt
        if age > ttl then
          -- Expired, delete files
          (none, false, (fs.removeData dp).removeMeta mp)
        else (some data, true, fs)
      else (some data, true, fs)

/-- Fault injection for the fallible OS / serialization steps of
`Set`. A flag set to `true` makes the corresponding Go call return a
non-nil error. -/
structure SetFaults where
  mkdirFail : Bool
  writeDataFail : Bool
  marshalFail : Bool
  writeMetaFail : Bool
deriving DecidableEq

/-- The all-succeed fault assignment. -/
def SetFaults.none : SetFaults := ⟨false, false, false, false⟩

/-- The error strings `Set` can wrap and return. -/
inductive SetError where
  | mkdirFailed
  | writeDataFailed
  | marshalFailed
  | writeMetaFailed
deriving DecidableEq

/-- `Cache.Set`: embedding of cache.go `Set`. `now` is
`time.Now().Unix()` at the write. Returns (error, file system after
the call). A failed `os.WriteFile` is modelled as leaving the target
file unchanged. -/
def Cache.Set (c : Cache) (now : Int) (faults : SetFaults) (fs : FileSys)
    (key : String) (data : List Nat) : Option SetError × FileSys :=
  if faults.mkdirFail then (some SetError.mkdirFailed, fs)
  else
    let dp := dataPath c.dir key
    let mp := metaPath c.dir key
    if faults.writeDataFail then (some SetError.writeDataFailed, fs)
    else
      let fs1 := fs.writeData dp data
      if faults.marshalFail then
        -- Clean up data file on error
        (some SetError.marshalFailed, fs1.removeData dp)
      else if faults.writeMetaFail then
        -- Clean up data file on error
        (some SetError.writeMetaFailed, fs1.removeData dp)
      else (none, fs1.writeMeta mp (MetaContent.valid now c.ttl))

/-- `Cache.IsEnabled`: `c.ttl > 0`. -/
def Cache.IsEnabled (c : Cache) : Bool := c.ttl > 0

/- ### Key canonicalizer (cache.go, `Cache.GenerateKey`) -/

/-- UTF-8 byte encoding of one character (as Go strings are UTF-8). -/
def utf8Bytes (c : Char) : List Nat :=
  let n := c.toNat
  if n < 128 then [n]
  else if n < 2048 then [192 + n / 64, 128 + n % 64]
  else if n < 65536 then [224 + n / 4096, 128 + n / 64 % 64, 128 + n % 64]
  else [240 + n / 262144, 128 + n / 4096 % 64, 128 + n / 64 % 64, 128 + n % 64]

/-- The bytes of a string. -/
def strBytes (s : String) : List Nat := (s.data.map utf8Bytes).flatten

/-- Uppercase hex digit, as used by `url.QueryEscape` percent
escapes. -/
def hexDigitUpper (n : Nat) : Char :=
  if n < 10 then Char.ofNat (48 + n) else Char.ofNat (55 + n)

/-- Lowercase hex digit, as used by `hex.EncodeToString`. -/
def hexDigitLower (n : Nat) : Char :=
  if n < 10 then Char.ofNat (48 + n) else Char.ofNat (87 + n)

/-- `hex.EncodeToString`. -/
def hexEncode (bs : List Nat) : String :=
  String.mk ((bs.map (fun b => [hexDigitLower (b / 16 % 16), hexDigitLower (b % 16)])).flatten)

/-- `url.QueryEscape`: ASCII alphanumerics and `-_.~` kept, space
becomes `+`, every other byte percent-escaped in uppercase hex. -/
def queryEscape (s : String) : String :=
  String.mk ((s.data.map (fun c =>
    if c.isAlphanum ∨ c = '-' ∨ c = '_' ∨ c = '.' ∨ c = '~' then [c]
    else if c = ' ' then ['+']
    else ((utf8Bytes c).map
      (fun b => ['%', hexDigitUpper (b / 16 % 16), hexDigitUpper (b % 16)])).flatten)).flatten)

/-- A scalar parameter value (the `interface{}` values the CLI puts in
a parameter bag); `fmt.Sprintf("%v", v)` below renders it. -/
inductive GoValue where
  | str (s : String)
  | int (n : Int)
  | bool (b : Bool)
deriving DecidableEq

/-- `fmt.Sprintf("%v", v)` for the scalar values above. -/
def formatGoValue : GoValue → String
  | GoValue.str s => s
  | GoValue.int n => toString n
  | GoValue.bool b => if b then "true" else "false"

/-- `url.Values.Encode()`: keys sorted, each pair rendered as
`QueryEscape(k)=QueryEscape(v)`, joined by `&`. The bag holds one
value per key, matching the single `values.Set` per key. -/
def encodeValues (vals : List (String × String)) : String :=
  let sorted := List.insertionSort (fun a b : String × String => a.1 ≤ b.1) vals
  String.intercalate "&" (sorted.map (fun kv => queryEscape kv.1 ++ "=" ++ queryEscape kv.2))

/-- The loop of `GenerateKey`: sort the key names, then walk them in
order and keep `k → fmt.Sprintf("%v", v)` for every key whose value is
present (`ok`) and non-nil. A Go `map[string]interface{}` is embedded
as an association list with pairwise-distinct names; a `none` value
models a nil interface value. -/
def canonicalParams (params : List (String × Option GoValue)) : List (String × String) :=
  let keys := List.insertionSort (fun a b : String => a ≤ b) (params.map Prod.fst)
  keys.filterMap (fun k =>
    match List.lookup k params with
    | some (some v) => some (k, formatGoValue v)
    | _ => none)

/- SHA-256 (crypto/sha256), over byte lists, words as `Nat` mod 2^32. -/

/-- Truncate to a 32-bit word. -/
def w32 (n : Nat) : Nat := n % 4294967296

/-- Right rotation of a 32-bit word. -/
def rotr32 (k x : Nat) : Nat := w32 (x / 2 ^ k + x % 2 ^ k * 2 ^ (32 - k))

def bigSigma0 (x : Nat) : Nat := rotr32 2 x ^^^ rotr32 13 x ^^^ rotr32 22 x
def bigSigma1 (x : Nat) : Nat := rotr32 6 x ^^^ rotr32 11 x ^^^ rotr32 25 x
def smallSigma0 (x : Nat) : Nat := rotr32 7 x ^^^ rotr32 18 x ^^^ x / 2 ^ 3
def smallSigma1 (x : Nat) : Nat := rotr32 17 x ^^^ rotr32 19 x ^^^ x / 2 ^ 10
def chF (x y z : Nat) : Nat := (x &&& y) ^^^ ((x ^^^ 4294967295) &&& z)
def majF (x y z : Nat) : Nat := (x &&& y) ^^^ (x &&& z) ^^^ (y &&& z)

/-- The 64 SHA-256 round constants. -/
def sha256K : List Nat :=
  [1116352408, 1899447441, 3049323471, 3921009573, 961987163,
   1508970993, 2453635748, 2870763221, 3624381080, 310598401,
   607225278, 1426881987, 1925078388, 2162078206, 2614888103,
   3248222580, 3835390401, 4022224774, 264347078, 604807628,
   770255983, 1249150122, 1555081692, 1996064986, 2554220882,
   2821834349, 2952996808, 3210313671, 3336571891, 3584528711,
   113926993, 338241895, 666307205, 773529912, 1294757372,
   1396182291, 1695183700, 1986661051, 2177026350, 2456956037,
   2730485921, 2820302411, 3259730800, 3345764771, 3516065817,
   3600352804, 4094571909, 275423344, 430227734, 506948616,
   659060556, 883997877, 958139571, 1322822218, 1537002063,
   1747873779, 1955562222, 2024104815, 2227730452, 2361852424,
   2428436474, 2756734187, 3204031479, 3329325298]

/-- The 8 initial hash values. -/
def sha256H0 : List Nat :=
  [1779033703, 3144134277, 1013904242, 2773480762, 1359893119,
   2600822924, 528734635, 1541459225]

/-- `k` bytes of `n`, big-endian. -/
def beBytes : Nat → Nat → List Nat
  | 0, _ => []
  | k + 1, n => beBytes k (n / 256) ++ [n % 256]

/-- SHA-256 padding: `0x80`, zeros to 56 mod 64, 8-byte big-endian bit
length. -/
def padMessage (msg : List Nat) : List Nat :=
  let zeros := (120 - (msg.length + 1) % 64) % 64
  msg ++ [128] ++ List.replicate zeros 0 ++ beBytes 8 (8 * msg.length)

/-- Split a padded message into its 64-byte blocks. -/
def takeBlocks : Nat → List Nat → List (List Nat)
  | 0, _ => []
  | k + 1, l => l.take 64 :: takeBlocks k (l.drop 64)

/-- The 16 big-endian 32-bit words of a 64-byte block. -/
def toWords : List Nat → List Nat
  | a :: b :: c :: d :: rest => (((a * 256 + b) * 256 + c) * 256 + d) :: toWords rest
  | _ => []

/-- Extend the message schedule by `k` further words. -/
def buildSchedule : Nat → List Nat → List Nat
  | 0, ws => ws
  | k + 1, ws =>
    let i := ws.length
    let wi := w32 (smallSigma1 (ws.getD (i - 2) 0) + ws.getD (i - 7) 0 +
      smallSigma0 (ws.getD (i - 15) 0) + ws.getD (i - 16) 0)
    buildSchedule k (ws ++ [wi])

/-- One round of the compression function on the 8-word state. -/
def compressStep (st : List Nat) (kw : Nat × Nat) : List Nat :=
  match st with
  | [a, b, c, d, e, f, g, h] =>
    let t1 := w32 (h + bigSigma1 e + chF e f g + kw.1 + kw.2)
    let t2 := w32 (bigSigma0 a + majF a b c)
    [w32 (t1 + t2), a, b, c, w32 (d + t1), e, f, g]
  | other => other

/-- Process one 64-byte block into the running hash state. -/
def processBlock (hs : List Nat) (block : List Nat) : List Nat :=
  let ws := buildSchedule 48 (toWords block)
  let st := (sha256K.zip ws).foldl compressStep hs
  (hs.zip st).map (fun p => w32 (p.1 + p.2))

/-- `sha256.Sum256` as a list of 32 bytes. -/
def sha256Bytes (msg : List Nat) : List Nat :=
  let padded := padMessage msg
  let hs := (takeBlocks (padded.length / 64) padded).foldl processBlock sha256H0
  (hs.map (beBytes 4)).flatten

/-- `Cache.GenerateKey`: canonicalize the parameter bag, build
`endpoint + "?" + values.Encode()`, SHA-256 it, hex-encode, first 12
characters. -/
def Cache.GenerateKey (_c : Cache) (endpoint : String)
    (params : List (String × Option GoValue)) : String :=
  let canonical := endpoint ++ "?" ++ encodeValues (canonicalParams params)
  (hexEncode (sha256Bytes (strBytes canonical))).take 12

/- ### Request executor (internal/api/client.go, `doRequest`) -/

/-- `strings.Contains(s, sub)` over the characters of the strings. -/
def goContainsAux (sub : List Char) : List Char → Bool
  | [] => List.isPrefixOf sub []
  | c :: rest => List.isPrefixOf sub (c :: rest) || goContainsAux sub rest

/-- `strings.Contains(s, sub)`. -/
def goContains (s sub : String) : Bool := goContainsAux sub.data s.data

/-- `strconv.Atoi` on a 64-bit platform: optional sign, then one or
more decimal digits, value within the `int64` range; `none` models a
non-nil error. -/
def goAtoi (s : String) : Option Int :=
  let parse : Int → List Char → Option Int := fun sign digits =>
    if digits = [] ∨ ¬ digits.all Char.isDigit then none
    else
      let v : Int := sign * (digits.foldl (fun acc c => acc * 10 + (c.toNat - 48)) 0 : Nat)
      if v < -(2 ^ 63) ∨ v ≥ 2 ^ 63 then none else some v
  match s.data with
  | '+' :: rest => parse 1 rest
  | '-' :: rest => parse (-1) rest
  | chars => parse 1 chars

/-- What a single `req.Execute` attempt can produce: a transport-layer
error (non-nil `err`, carrying `err.Error()`), or an HTTP response
with a status code, the value of the `Retry-After` header
(`Header().Get` returns `""` when absent), and a body. -/
inductive AttemptOutcome where
  | transportError (msg : String)
  | httpResponse (status : Nat) (retryAfterHeader : String) (body : String)
deriving DecidableEq

/-- The classified errors `doRequest` can return (nil response side).
`network` is `&NetworkError{...}`, `notFound` is `&NotFoundError{...}`,
`rateLimited` is `&RateLimitError{RetryAfter: ...}`, `serverError` is
`fmt.Errorf("server error: %d", ...)` and `apiError` is
`fmt.Errorf("API error: %d - %s", ...)`. -/
inductive ApiErr where
  | network (msg : String)
  | notFound (resource : String)
  | rateLimited (retryAfter : Int)
  | serverError (status : Nat)
  | apiError (status : Nat) (body : String)
deriving DecidableEq

/-- The client configuration fields `doRequest` consults.
`maxRetryDelay` is in nanoseconds (Go `time.Duration`); `0` means
unset. -/
structure ClientCfg where
  maxRetryDelay : Int
deriving DecidableEq

/-- `maxRetries := 3` at the top of `doRequest`. -/
def maxRetries : Nat := 3

/-- `calculateBackoff`: `0` for attempt 0, else
`2^(attempt-1) seconds + rand.Intn(1000) milliseconds`, in
nanoseconds. The RNG is injected as `jitter`; `% 1000` reflects the
range of `rand.Intn(1000)`. -/
def calculateBackoff (jitter : Nat → Nat) (attempt : Nat) : Int :=
  if attempt = 0 then 0
  else 2 ^ (attempt - 1) * 1000000000 + (jitter attempt % 1000) * 1000000

/-- `shouldRetry` on a non-nil error with message `msg`. -/
def shouldRetry (msg : String) : Bool :=
  goContains msg "timeout" ||
  goContains msg "connection refused" ||
  goContains msg "no such host" ||
  goContains msg "temporary"

/-- `parseRetryAfter`: the `Retry-After` header value, `0` when the
header is absent (empty string) or `strconv.Atoi` fails. -/
def parseRetryAfter (header : String) : Int :=
  if header = "" then 0
  else
    match goAtoi header with
    | some seconds => seconds
    | none => 0

/-- The observable outcome of one `doRequest` call: the two Go return
values (`*resty.Response` as status and body, and the error), the
number of attempts executed, and the durations (nanoseconds) passed to
`time.Sleep` between attempts. -/
structure DoResult where
  resp : Option (Nat × String)
  err : Option ApiErr
  attempts : Nat
  sleeps : List Int
deriving DecidableEq

/-- The retry loop of `doRequest`, one recursive step per iteration of
`for attempt := 0; attempt < maxRetries; attempt++`. `fuel` is the
number of iterations the `for` condition still allows
(`maxRetries - attempt`); `outcomes` is the transport oracle giving
each attempt its result. -/
def doRequestLoop (c : ClientCfg) (jitter : Nat → Nat) (endpoint : String)
    (outcomes : Nat → AttemptOutcome) :
    Nat → Nat → Option ApiErr → DoResult
  | _, 0, lastErr => ⟨none, lastErr, 0, []⟩
  | attempt, fuel + 1, lastErr =>
    match outcomes attempt with
    | AttemptOutcome.transportError msg =>
      let lastErr := some (ApiErr.network msg)
      if attempt < maxRetries - 1 ∧ shouldRetry msg then
        let sleepDuration := calculateBackoff jitter attempt
        let r := doRequestLoop c jitter endpoint outcomes (attempt + 1) fuel lastErr
        ⟨r.resp, r.err, r.attempts + 1, sleepDuration :: r.sleeps⟩
      else ⟨none, lastErr, 1, []⟩
    | AttemptOutcome.httpResponse status hdr body =>
      if status = 200 then ⟨some (status, body), none, 1, []⟩
      else if status = 404 then ⟨none, some (ApiErr.notFound endpoint), 1, []⟩
      else if status = 429 then
        let retryAfter := parseRetryAfter hdr
        if attempt < maxRetries - 1 then
          let sleep0 : Int := retryAfter * 1000000000
          let sleep1 := if sleep0 ≤ 0 then calculateBackoff jitter attempt else sleep0
          let sleep2 :=
            if c.maxRetryDelay > 0 ∧ sleep1 > c.maxRetryDelay then c.maxRetryDelay
            else sleep1
          let r := doRequestLoop c jitter endpoint outcomes (attempt + 1) fuel lastErr
          ⟨r.resp, r.err, r.attempts + 1, sleep2 :: r.sleeps⟩
        else ⟨none, some (ApiErr.rateLimited retryAfter), 1, []⟩
      else if status = 500 ∨ status = 502 ∨ status = 503 then
        if attempt < maxRetries - 1 then
          let sleepDuration := calculateBackoff jitter attempt
          let r := doRequestLoop c jitter endpoint outcomes (attempt + 1) fuel lastErr
          ⟨r.resp, r.err, r.attempts + 1, sleepDuration :: r.sleeps⟩
        else ⟨none, some (ApiErr.serverError status), 1, []⟩
      else if status ≥ 400 then ⟨none, some (ApiErr.apiError status body), 1, []⟩
      else ⟨some (status, body), none, 1, []⟩

/-- `doRequest`: run the loop from attempt 0 with the full budget and
`lastErr = nil`. -/
def doRequest (c : ClientCfg) (jitter : Nat → Nat) (endpoint : String)
    (outcomes : Nat → AttemptOutcome) : DoResult :=
  doRequestLoop c jitter endpoint outcomes 0 maxRetries none

/- ### Theorems: cache store -/

/-- C2: `Get(key)` misses when the data file is absent; misses and
deletes the orphan data file when the metadata file is absent; misses
and deletes both files when the metadata fails to parse; when the
TTL of the store is positive, misses and deletes both files when
`now - createdAt` exceeds the recorded ttl of the entry; returns
`(payload, true)` untouched when the TTL check passes; and returns
`found = true` only when all of these checks pass. -/
theorem cache_get_contract (c : Cache) (now : Int) (fs : FileSys) (key : String) :
    (fs.dataFile (dataPath c.dir key) = none → c.Get now fs key = (none, false, fs)) ∧
    (∀ data, fs.dataFile (dataPath c.dir key) = some data →
      fs.metaFile (metaPath c.dir key) = none →
      c.Get now fs key = (none, false, fs.removeData (dataPath c.dir key))) ∧
    (∀ data raw, fs.dataFile (dataPath c.dir key) = some data →
      fs.metaFile (metaPath c.dir key) = some (MetaContent.garbage raw) →
      c.Get now fs key =
        (none, false, (fs.removeData (dataPath c.dir key)).removeMeta (metaPath c.dir key))) ∧
    (∀ data createdAt ttl, fs.dataFile (dataPath c.dir key) = some data →
      fs.metaFile (metaPath c.dir key) = some (MetaContent.valid createdAt ttl) →
      c.ttl > 0 → now - createdAt > ttl →
      c.Get now fs key =
        (none, false, (fs.removeData (dataPath c.dir key)).removeMeta (metaPath c.dir key))) ∧
    (∀ data createdAt ttl, fs.dataFile (dataPath c.dir key) = some data →
      fs.metaFile (metaPath c.dir key) = some (MetaContent.valid createdAt ttl) →
      c.ttl > 0 → now - createdAt ≤ ttl →
      c.Get now fs key = (some data, true, fs)) ∧
    ((c.Get now fs key).2.1 = true →
      ∃ data createdAt ttl, fs.dataFile (dataPath c.dir key) = some data ∧
        fs.metaFile (metaPath c.dir key) = some (MetaContent.valid createdAt ttl) ∧
        (c.ttl > 0 → now - createdAt ≤ ttl) ∧
        c.Get now fs key = (some data, true, fs)) := by
  refine ⟨?_, ?_, ?_, ?_, ?_, ?_⟩
  · intro h; simp [Cache.Get, h]
  · intro data h1 h2; simp [Cache.Get, h1, h2]
  · intro data raw h1 h2; simp [Cache.Get, h1, h2]
  · intro data createdAt ttl h1 h2 hpos hexp
    simp [Cache.Get, h1, h2, hpos, hexp]
  · intro data createdAt ttl h1 h2 hpos hexp
    simp [Cache.Get, h1, h2, hpos, not_lt.mpr hexp]
  · intro hfound
    unfold Cache.Get at hfound
    cases h1 : fs.dataFile (dataPath c.dir key) with
    | none => simp [h1] at hfound
    | some data =>
      cases h2 : fs.metaFile (metaPath c.dir key) with
      | none => simp [h1, h2] at hfound
      | some m =>
        cases m with
        | garbage raw => simp [h1, h2] at hfound
        | valid createdAt ttl =>
          by_cases hpos : c.ttl > 0
          · by_cases hexp : now - createdAt > ttl
            · simp [h1, h2, hpos, hexp] at hfound
            · exact ⟨data, createdAt, ttl, rfl, rfl, fun _ => not_lt.mp hexp,
                by simp [Cache.Get, h1, h2, hpos, hexp]⟩
          · exact ⟨data, createdAt, ttl, rfl, rfl, fun h => absurd h hpos,
              by simp [Cache.Get, h1, h2, hpos]⟩

/-- Witness for C2 at a concrete corrupt entry: data present, garbage
metadata; the read misses and removes both files. -/
theorem cache_get_contract_witness :
    Cache.Get ⟨"d", 10⟩ 0
      (FileSys.mk (fun p => if p = dataPath "d" "k" then some [1] else none)
        (fun p => if p = metaPath "d" "k" then some (MetaContent.garbage "x") else none)) "k" =
      (none, false,
        ((FileSys.mk (fun p => if p = dataPath "d" "k" then some [1] else none)
          (fun p => if p = metaPath "d" "k" then some (MetaContent.garbage "x") else none)).removeData
            (dataPath "d" "k")).removeMeta (metaPath "d" "k")) := by
  exact (cache_get_contract ⟨"d", 10⟩ 0 _ "k").2.2.1 [1] "x" (by simp) (by simp)

/-- C3: on an enabled store, a `Set` that returns no error, followed
immediately by `Get` of the same key, yields the stored payload with
`found = true`. -/
theorem cache_set_get_roundtrip (c : Cache) (now : Int) (faults : SetFaults) (fs : FileSys)
    (key : String) (data : List Nat) (henabled : c.ttl > 0) (_hne : data ≠ [])
    (hok : (c.Set now faults fs key data).1 = none) :
    c.Get now (c.Set now faults fs key data).2 key =
      (some data, true, (c.Set now faults fs key data).2) := by
  unfold Cache.Set at hok ⊢
  by_cases h1 : faults.mkdirFail
  · simp [h1] at hok
  · by_cases h2 : faults.writeDataFail
    · simp [h1, h2] at hok
    · by_cases h3 : faults.marshalFail
      · simp [h1, h2, h3] at hok
      · by_cases h4 : faults.writeMetaFail
        · simp [h1, h2, h3, h4] at hok
        · simp only [h1, h2, h3, h4, if_false, if_true, Bool.false_eq_true]
          simp [Cache.Get, FileSys.writeMeta, FileSys.writeData, henabled]
          omega

/-- Witness for C3 at a concrete store, key and payload. -/
theorem cache_set_get_roundtrip_witness :
    Cache.Get ⟨"d", 60⟩ 100
      (Cache.Set ⟨"d", 60⟩ 100 SetFaults.none FileSys.empty "k" [1, 2]).2 "k" =
      (some [1, 2], true, (Cache.Set ⟨"d", 60⟩ 100 SetFaults.none FileSys.empty "k" [1, 2]).2) := by
  exact cache_set_get_roundtrip ⟨"d", 60⟩ 100 SetFaults.none FileSys.empty "k" [1, 2]
    (by decide) (by decide) (by decide)

/-- C8: if `Set` fails after the payload file was written (metadata
serialization or metadata write fails), it returns an error and the
payload file is removed; the metadata files are untouched. -/
theorem cache_set_no_orphan (c : Cache) (now : Int) (faults : SetFaults) (fs : FileSys)
    (key : String) (data : List Nat)
    (h1 : faults.mkdirFail = false) (h2 : faults.writeDataFail = false)
    (h3 : faults.marshalFail = true ∨ faults.writeMetaFail = true) :
    (c.Set now faults fs key data).1 ≠ none ∧
    (c.Set now faults fs key data).2.dataFile (dataPath c.dir key) = none ∧
    (c.Set now faults fs key data).2.metaFile = fs.metaFile := by
  by_cases hm : faults.marshalFail
  · simp [Cache.Set, h1, h2, hm, FileSys.writeData, FileSys.removeData]
  · rcases h3 with h3 | h3
    · exact absurd h3 hm
    · simp [Cache.Set, h1, h2, hm, h3, FileSys.writeData, FileSys.removeData]

/-- Witness for C8: a failing metadata write removes the payload file
just written. -/
theorem cache_set_no_orphan_witness :
    (Cache.Set ⟨"d", 60⟩ 100 ⟨false, false, false, true⟩ FileSys.empty "k" [1]).1 ≠ none ∧
    (Cache.Set ⟨"d", 60⟩ 100 ⟨false, false, false, true⟩ FileSys.empty "k" [1]).2.dataFile
      (dataPath "d" "k") = none ∧
    (Cache.Set ⟨"d", 60⟩ 100 ⟨false, false, false, true⟩ FileSys.empty "k" [1]).2.metaFile =
      FileSys.empty.metaFile := by
  exact cache_set_no_orphan ⟨"d", 60⟩ 100 ⟨false, false, false, true⟩ FileSys.empty "k" [1]
    rfl rfl (Or.inr rfl)

/-- C9: the expiry check in `Get` compares the age of the entry
against the TTL recorded in its metadata, not the configured TTL of
the reading store, which only gates whether the check runs: an entry
whose age exceeds the reader TTL but not the recorded TTL is still
served; an entry older than its recorded TTL is deleted; a store with
`ttl ≤ 0` serves any intact entry regardless of age and never deletes
it as expired; and a successful `Set` records the configured TTL of
the writer in the metadata. -/
theorem cache_ttl_from_metadata (c : Cache) (now createdAt mttl : Int) (fs : FileSys)
    (key : String) (data : List Nat) :
    (c.ttl > 0 → fs.dataFile (dataPath c.dir key) = some data →
      fs.metaFile (metaPath c.dir key) = some (MetaContent.valid createdAt mttl) →
      now - createdAt > c.ttl → now - createdAt ≤ mttl →
      c.Get now fs key = (some data, true, fs)) ∧
    (c.ttl > 0 → fs.dataFile (dataPath c.dir key) = some data →
      fs.metaFile (metaPath c.dir key) = some (MetaContent.valid createdAt mttl) →
      now - createdAt > mttl →
      c.Get now fs key =
        (none, false, (fs.removeData (dataPath c.dir key)).removeMeta (metaPath c.dir key))) ∧
    (c.ttl ≤ 0 → fs.dataFile (dataPath c.dir key) = some data →
      fs.metaFile (metaPath c.dir key) = some (MetaContent.valid createdAt mttl) →
      c.Get now fs key = (some data, true, fs)) ∧
    (∀ faults, (c.Set now faults fs key data).1 = none →
      (c.Set now faults fs key data).2.metaFile (metaPath c.dir key) =
        some (MetaContent.valid now c.ttl)) := by
  refine ⟨?_, ?_, ?_, ?_⟩
  · intro hpos h1 h2 _hreader hentry
    simp [Cache.Get, h1, h2, hpos, not_lt.mpr hentry]
  · intro hpos h1 h2 hexp
    simp [Cache.Get, h1, h2, hpos, hexp]
  · intro hnp h1 h2
    simp [Cache.Get, h1, h2, not_lt.mpr hnp]
  · intro faults hok
    unfold Cache.Set at hok ⊢
    by_cases h1 : faults.mkdirFail
    · simp [h1] at hok
    · by_cases h2 : faults.writeDataFail
      · simp [h1, h2] at hok
      · by_cases h3 : faults.marshalFail
        · simp [h1, h2, h3] at hok
        · by_cases h4 : faults.writeMetaFail
          · simp [h1, h2, h3, h4] at hok
          · simp [h1, h2, h3, h4, FileSys.writeMeta]

/- ### Theorems: request executor -/

/-- The loop never executes more attempts than its remaining fuel. -/
theorem doRequestLoop_attempts_le (c : ClientCfg) (jitter : Nat → Nat) (endpoint : String)
    (outcomes : Nat → AttemptOutcome) :
    ∀ fuel attempt lastErr,
      (doRequestLoop c jitter endpoint outcomes attempt fuel lastErr).attempts ≤ fuel := by
  intro fuel
  induction fuel with
  | zero => intro attempt lastErr; exact Nat.le_refl 0
  | succ n ih =>
    intro attempt lastErr
    unfold doRequestLoop
    split
    · split_ifs with hg
      · exact Nat.succ_le_succ (ih _ _)
      · exact Nat.succ_le_succ (Nat.zero_le n)
    · split_ifs <;>
        first
          | exact Nat.succ_le_succ (Nat.zero_le n)
          | exact Nat.succ_le_succ (ih _ _)

/-- With fuel left, the loop executes at least one attempt. -/
theorem doRequestLoop_attempts_pos (c : ClientCfg) (jitter : Nat → Nat) (endpoint : String)
    (outcomes : Nat → AttemptOutcome) :
    ∀ fuel attempt lastErr, 0 < fuel →
      1 ≤ (doRequestLoop c jitter endpoint outcomes attempt fuel lastErr).attempts := by
  intro fuel
  cases fuel with
  | zero => intro _ _ hpos; exact absurd hpos (Nat.lt_irrefl 0)
  | succ n =>
    intro attempt lastErr _
    unfold doRequestLoop
    split
    · split_ifs with hg
      · exact Nat.succ_le_succ (Nat.zero_le _)
      · exact Nat.le_refl 1
    · split_ifs <;>
        first
          | exact Nat.le_refl 1
          | exact Nat.succ_le_succ (Nat.zero_le _)

/-- A run in which every remaining attempt receives HTTP 500 uses all
its fuel and ends in the terminal server-error classification. -/
theorem doRequestLoop_all500 (c : ClientCfg) (jitter : Nat → Nat) (endpoint : String)
    (outcomes : Nat → AttemptOutcome) (hdr body : Nat → String)
    (h : ∀ i, i < maxRetries → outcomes i = AttemptOutcome.httpResponse 500 (hdr i) (body i)) :
    ∀ fuel attempt lastErr, attempt + fuel = maxRetries → 0 < fuel →
      (doRequestLoop c jitter endpoint outcomes attempt fuel lastErr).attempts = fuel ∧
      (doRequestLoop c jitter endpoint outcomes attempt fuel lastErr).err =
        some (ApiErr.serverError 500) ∧
      (doRequestLoop c jitter endpoint outcomes attempt fuel lastErr).resp = none := by
  intro fuel
  induction fuel with
  | zero => intro attempt lastErr _ hpos; exact absurd hpos (Nat.lt_irrefl 0)
  | succ n ih =>
    intro attempt lastErr hsum _
    have hmr : maxRetries = 3 := rfl
    have hatt : attempt < maxRetries := by omega
    unfold doRequestLoop
    rw [h attempt hatt]
    by_cases hlast : attempt < maxRetries - 1
    · have hn : 0 < n := by omega
      have hrec := ih (attempt + 1) lastErr (by omega) hn
      simp only [hlast, if_true, and_true]
      norm_num
      exact ⟨hrec.1, hrec.2.1, hrec.2.2⟩
    · have hn0 : n = 0 := by omega
      simp [hlast]
      exact hn0

/-- A run in which every remaining attempt receives HTTP 429 uses all
its fuel and ends in the terminal rate-limited classification carrying
the hint parsed from the header of the last attempt. -/
theorem doRequestLoop_all429 (c : ClientCfg) (jitter : Nat → Nat) (endpoint : String)
    (outcomes : Nat → AttemptOutcome) (hdr body : Nat → String)
    (h : ∀ i, i < maxRetries → outcomes i = AttemptOutcome.httpResponse 429 (hdr i) (body i)) :
    ∀ fuel attempt lastErr, attempt + fuel = maxRetries → 0 < fuel →
      (doRequestLoop c jitter endpoint outcomes attempt fuel lastErr).attempts = fuel ∧
      (doRequestLoop c jitter endpoint outcomes attempt fuel lastErr).err =
        some (ApiErr.rateLimited (parseRetryAfter (hdr (maxRetries - 1)))) ∧
      (doRequestLoop c jitter endpoint outcomes attempt fuel lastErr).resp = none := by
  intro fuel
  induction fuel with
  | zero => intro attempt lastErr _ hpos; exact absurd hpos (Nat.lt_irrefl 0)
  | succ n ih =>
    intro attempt lastErr hsum _
    have hmr : maxRetries = 3 := rfl
    have hatt : attempt < maxRetries := by omega
    unfold doRequestLoop
    rw [h attempt hatt]
    by_cases hlast : attempt < maxRetries - 1
    · have hn : 0 < n := by omega
      have hrec := ih (attempt + 1) lastErr (by omega) hn
      simp only [hlast, if_true, and_true]
      norm_num
      exact ⟨hrec.1, hrec.2.1, hrec.2.2⟩
    · have hn0 : n = 0 := by omega
      have hatt2 : attempt = maxRetries - 1 := by omega
      subst hatt2
      simp [hlast]
      exact hn0

/-- A run in which every remaining attempt fails at the transport
layer with a retryable message uses all its fuel, sleeps between
attempts, and ends in the network classification. -/
theorem doRequestLoop_allTransport (c : ClientCfg) (jitter : Nat → Nat) (endpoint : String)
    (outcomes : Nat → AttemptOutcome) (msg : String) (hretry : shouldRetry msg = true)
    (h : ∀ i, i < maxRetries → outcomes i = AttemptOutcome.transportError msg) :
    ∀ fuel attempt lastErr, attempt + fuel = maxRetries → 0 < fuel →
      (doRequestLoop c jitter endpoint outcomes attempt fuel lastErr).attempts = fuel ∧
      (doRequestLoop c jitter endpoint outcomes attempt fuel lastErr).err =
        some (ApiErr.network msg) ∧
      (doRequestLoop c jitter endpoint outcomes attempt fuel lastErr).resp = none ∧
      (doRequestLoop c jitter endpoint outcomes attempt fuel lastErr).sleeps.length = fuel - 1 := by
  intro fuel
  induction fuel with
  | zero => intro attempt lastErr _ hpos; exact absurd hpos (Nat.lt_irrefl 0)
  | succ n ih =>
    intro attempt lastErr hsum _
    have hmr : maxRetries = 3 := rfl
    have hatt : attempt < maxRetries := by omega
    unfold doRequestLoop
    rw [h attempt hatt]
    by_cases hlast : attempt < maxRetries - 1
    · have hn : 0 < n := by omega
      have hrec := ih (attempt + 1) (some (ApiErr.network msg)) (by omega) hn
      simp only [hlast, hretry, and_self, if_true, true_and]
      norm_num
      exact ⟨hrec.1, hrec.2.1, hrec.2.2.1, by rw [hrec.2.2.2]; omega⟩
    · have hn0 : n = 0 := by omega
      simp [hlast]
      omega

/-- C1: a request whose every attempt receives HTTP 500 makes exactly
3 total attempts and returns the terminal server-error classification
with no response; and for every call shape (any endpoint, any
transport behavior) the attempt budget is the same fixed 3. -/
theorem retry_ceiling (c c2 : ClientCfg) (jitter jitter2 : Nat → Nat)
    (endpoint endpoint2 : String) (outcomes outcomes2 : Nat → AttemptOutcome)
    (hdr body : Nat → String)
    (h : ∀ i, i < maxRetries → outcomes i = AttemptOutcome.httpResponse 500 (hdr i) (body i)) :
    (doRequest c jitter endpoint outcomes).attempts = 3 ∧
    (doRequest c jitter endpoint outcomes).err = some (ApiErr.serverError 500) ∧
    (doRequest c jitter endpoint outcomes).resp = none ∧
    (doRequest c2 jitter2 endpoint2 outcomes2).attempts ≤ 3 := by
  have h1 := doRequestLoop_all500 c jitter endpoint outcomes hdr body h maxRetries 0 none rfl
    (by decide)
  exact ⟨h1.1, h1.2.1, h1.2.2,
    doRequestLoop_attempts_le c2 jitter2 endpoint2 outcomes2 maxRetries 0 none⟩

/-- Witness for C1: an always-500 server and, for the budget bound, an
always-404 one. -/
theorem retry_ceiling_witness :
    (doRequest ⟨0⟩ (fun _ => 0) "/api/page"
      (fun _ => AttemptOutcome.httpResponse 500 "" "oops")).attempts = 3 ∧
    (doRequest ⟨0⟩ (fun _ => 0) "/api/page"
      (fun _ => AttemptOutcome.httpResponse 500 "" "oops")).err =
      some (ApiErr.serverError 500) ∧
    (doRequest ⟨0⟩ (fun _ => 0) "/api/page"
      (fun _ => AttemptOutcome.httpResponse 500 "" "oops")).resp = none ∧
    (doRequest ⟨0⟩ (fun _ => 0) "/api/typeahead"
      (fun _ => AttemptOutcome.httpResponse 404 "" "")).attempts ≤ 3 :=
  retry_ceiling ⟨0⟩ ⟨0⟩ (fun _ => 0) (fun _ => 0) "/api/page" "/api/typeahead" _ _
    (fun _ => "") (fun _ => "oops") (fun _ _ => rfl)

/-- C4 counterexample: the header `"-5"` is not a valid non-negative
integer, yet the terminal rate-limited error reports `-5`, not `0`. -/
theorem rate_limited_negative_hint_counterexample :
    (doRequest ⟨0⟩ (fun _ => 0) "/api/full-text-search"
      (fun _ => AttemptOutcome.httpResponse 429 "-5" "")).err =
      some (ApiErr.rateLimited (-5)) ∧
    parseRetryAfter "-5" ≠ 0 := by decide

/-- C4 amended: the retry-after of the rate-limited error equals the value
`strconv.Atoi` parses from the retry hint header — including negative
values — and `0` when the header is absent or unparsable; exhausting
the budget on 429s surfaces a terminal rate-limited error reporting
the hint parsed on the final attempt. -/
theorem rate_limited_hint_reporting (c : ClientCfg) (jitter : Nat → Nat) (endpoint : String)
    (outcomes : Nat → AttemptOutcome) (hdr body : Nat → String)
    (h : ∀ i, i < maxRetries → outcomes i = AttemptOutcome.httpResponse 429 (hdr i) (body i)) :
    (doRequest c jitter endpoint outcomes).err =
      some (ApiErr.rateLimited (parseRetryAfter (hdr (maxRetries - 1)))) ∧
    (doRequest c jitter endpoint outcomes).attempts = 3 ∧
    (∀ s n, goAtoi s = some n → parseRetryAfter s = n) ∧
    (∀ s, goAtoi s = none → parseRetryAfter s = 0) := by
  have h1 := doRequestLoop_all429 c jitter endpoint outcomes hdr body h maxRetries 0 none rfl
    (by decide)
  refine ⟨h1.2.1, h1.1, ?_, ?_⟩
  · intro s n hsn
    by_cases hs : s = ""
    · subst hs
      have hnone : goAtoi "" = none := rfl
      rw [hnone] at hsn
      exact Option.noConfusion hsn
    · simp [parseRetryAfter, hs, hsn]
  · intro s hs
    by_cases hse : s = ""
    · simp [parseRetryAfter, hse]
    · simp [parseRetryAfter, hse, hs]

/-- Witness for the amended C4 claim at header `"7"`. -/
theorem rate_limited_hint_reporting_witness :
    (doRequest ⟨0⟩ (fun _ => 0) "/api/full-text-search"
      (fun _ => AttemptOutcome.httpResponse 429 "7" "")).err =
      some (ApiErr.rateLimited (parseRetryAfter "7")) ∧
    (doRequest ⟨0⟩ (fun _ => 0) "/api/full-text-search"
      (fun _ => AttemptOutcome.httpResponse 429 "7" "")).attempts = 3 ∧
    (∀ s n, goAtoi s = some n → parseRetryAfter s = n) ∧
    (∀ s, goAtoi s = none → parseRetryAfter s = 0) :=
  rate_limited_hint_reporting ⟨0⟩ (fun _ => 0) "/api/full-text-search" _
    (fun _ => "7") (fun _ => "") (fun _ _ => rfl)

/-- C5 counterexample: after an attempt fails with a timeout (a
transport error whose message contains "timeout"), the executor
performs a further attempt — here it retries and succeeds, making 2
attempts — instead of failing fast with no further retries. -/
theorem overall_timeout_counterexample :
    (doRequest ⟨0⟩ (fun _ => 0) "/api/full-text-search"
      (fun i => if i = 0 then AttemptOutcome.transportError "dial tcp 1.2.3.4:443: i/o timeout"
        else AttemptOutcome.httpResponse 200 "" "ok")).attempts = 2 ∧
    (doRequest ⟨0⟩ (fun _ => 0) "/api/full-text-search"
      (fun i => if i = 0 then AttemptOutcome.transportError "dial tcp 1.2.3.4:443: i/o timeout"
        else AttemptOutcome.httpResponse 200 "" "ok")).resp = some (200, "ok") := by decide

/-- C5 amended: a timed-out attempt (transport error whose message
contains "timeout") does not end the call: with budget remaining the
executor retries it, so at least one further attempt is made; only the
fixed budget of 3 bounds the sequence. The configured timeout is
applied per attempt by the HTTP client, not to the whole sequence. -/
theorem timeout_is_retried (c : ClientCfg) (jitter : Nat → Nat) (endpoint : String)
    (outcomes : Nat → AttemptOutcome) (msg : String)
    (hsub : goContains msg "timeout" = true)
    (h0 : outcomes 0 = AttemptOutcome.transportError msg) :
    2 ≤ (doRequest c jitter endpoint outcomes).attempts ∧
    (doRequest c jitter endpoint outcomes).attempts ≤ 3 := by
  have hretry : shouldRetry msg = true := by simp [shouldRetry, hsub]
  constructor
  · unfold doRequest maxRetries
    unfold doRequestLoop
    rw [h0]
    simp only [maxRetries, hretry, and_true]
    norm_num
    have hp := doRequestLoop_attempts_pos c jitter endpoint outcomes 2 1
      (some (ApiErr.network msg)) (by decide)
    omega
  · exact doRequestLoop_attempts_le c jitter endpoint outcomes maxRetries 0 none

/-- Witness for the amended C5 claim: a concrete timeout on attempt 0
followed by a success. -/
theorem timeout_is_retried_witness :
    2 ≤ (doRequest ⟨0⟩ (fun _ => 0) "/api/page"
      (fun i => if i = 0 then AttemptOutcome.transportError "dial tcp: i/o timeout"
        else AttemptOutcome.httpResponse 200 "" "ok")).attempts ∧
    (doRequest ⟨0⟩ (fun _ => 0) "/api/page"
      (fun i => if i = 0 then AttemptOutcome.transportError "dial tcp: i/o timeout"
        else AttemptOutcome.httpResponse 200 "" "ok")).attempts ≤ 3 :=
  timeout_is_retried ⟨0⟩ (fun _ => 0) "/api/page" _ "dial tcp: i/o timeout" (by decide) rfl

/-- C6: a transport failure whose message marks it as connection
refused, DNS failure ("no such host"), timeout, or a
transient/"temporary" condition is retryable (`shouldRetry` is true),
and a run of such failures sleeps and retries rather than returning
immediately: it uses all 3 attempts, sleeps twice, and is classified
as a Network error. -/
theorem transport_error_retried (c : ClientCfg) (jitter : Nat → Nat) (endpoint : String)
    (outcomes : Nat → AttemptOutcome) (msg : String)
    (hsub : goContains msg "timeout" = true ∨ goContains msg "connection refused" = true ∨
      goContains msg "no such host" = true ∨ goContains msg "temporary" = true)
    (h : ∀ i, i < maxRetries → outcomes i = AttemptOutcome.transportError msg) :
    shouldRetry msg = true ∧
    (doRequest c jitter endpoint outcomes).attempts = 3 ∧
    (doRequest c jitter endpoint outcomes).err = some (ApiErr.network msg) ∧
    (doRequest c jitter endpoint outcomes).sleeps.length = 2 := by
  have hretry : shouldRetry msg = true := by
    unfold shouldRetry
    rcases hsub with h1 | h1 | h1 | h1 <;> simp [h1]
  have h1 := doRequestLoop_allTransport c jitter endpoint outcomes msg hretry h maxRetries 0
    none rfl (by decide)
  exact ⟨hretry, h1.1, h1.2.1, h1.2.2.2⟩

/-- Witness for C6: a DNS failure message, failing on all attempts. -/
theorem transport_error_retried_witness :
    shouldRetry "lookup grokipedia.com: no such host" = true ∧
    (doRequest ⟨0⟩ (fun _ => 0) "/api/constants"
      (fun _ => AttemptOutcome.transportError "lookup grokipedia.com: no such host")).attempts
      = 3 ∧
    (doRequest ⟨0⟩ (fun _ => 0) "/api/constants"
      (fun _ => AttemptOutcome.transportError "lookup grokipedia.com: no such host")).err =
      some (ApiErr.network "lookup grokipedia.com: no such host") ∧
    (doRequest ⟨0⟩ (fun _ => 0) "/api/constants"
      (fun _ => AttemptOutcome.transportError
        "lookup grokipedia.com: no such host")).sleeps.length = 2 :=
  transport_error_retried ⟨0⟩ (fun _ => 0) "/api/constants" _
    "lookup grokipedia.com: no such host" (Or.inr (Or.inr (Or.inl (by decide))))
    (fun _ _ => rfl)

/-- C10: a first-attempt response whose status is none of 200, 404,
429, 500, 502, 503 and is strictly below 400 is returned as a success
with no error after exactly one attempt, with no retry and no sleep. -/
theorem non_special_status_passthrough (c : ClientCfg) (jitter : Nat → Nat) (endpoint : String)
    (outcomes : Nat → AttemptOutcome) (status : Nat) (hdr body : String)
    (h0 : outcomes 0 = AttemptOutcome.httpResponse status hdr body)
    (hn : status ∉ ([200, 404, 429, 500, 502, 503] : List Nat))
    (hlt : status < 400) :
    doRequest c jitter endpoint outcomes = ⟨some (status, body), none, 1, []⟩ := by
  simp only [List.mem_cons, List.not_mem_nil, or_false, not_or] at hn
  obtain ⟨h200, h404, h429, h500, h502, h503⟩ := hn
  unfold doRequest maxRetries
  unfold doRequestLoop
  rw [h0]
  simp [h200, h404, h429, h500, h502, h503, Nat.not_le.mpr hlt]

/-- Witness for C10 at status 204. -/
theorem non_special_status_passthrough_witness :
    doRequest ⟨0⟩ (fun _ => 0) "/api/edits"
      (fun _ => AttemptOutcome.httpResponse 204 "" "no content") =
      ⟨some (204, "no content"), none, 1, []⟩ :=
  non_special_status_passthrough ⟨0⟩ (fun _ => 0) "/api/edits" _ 204 "" "no content" rfl
    (by decide) (by decide)

/- ### Theorems: key canonicalizer -/

/-- Association-list lookup is invariant under permutation when the
keys are pairwise distinct. -/
theorem lookup_eq_of_perm {β : Type} {k : String} :
    ∀ {p₁ p₂ : List (String × β)}, p₁.Perm p₂ → (p₁.map Prod.fst).Nodup →
      List.lookup k p₁ = List.lookup k p₂ := by
  intro p₁ p₂ hp
  induction hp with
  | nil => intro _; rfl
  | cons x hp ih =>
    intro hnd
    obtain ⟨kx, vx⟩ := x
    simp only [List.map_cons, List.nodup_cons] at hnd
    cases hbeq : k == kx with
    | true => simp [List.lookup, hbeq]
    | false => simp [List.lookup, hbeq, ih hnd.2]
  | swap x y l =>
    intro hnd
    obtain ⟨kx, vx⟩ := x
    obtain ⟨ky, vy⟩ := y
    simp only [List.map_cons, List.nodup_cons, List.mem_cons] at hnd
    have hne : ky ≠ kx := fun h => hnd.1 (Or.inl h)
    cases hbeq1 : k == ky with
    | true =>
      have hk : k = ky := by simpa using hbeq1
      have hbeq2 : (k == kx) = false := by
        simp [hk]
        exact hne
      simp [List.lookup, hbeq1, hbeq2]
    | false => cases hbeq2 : k == kx with
      | true => simp [List.lookup, hbeq1, hbeq2]
      | false => simp [List.lookup, hbeq1, hbeq2]
  | trans hp12 hp23 ih12 ih23 =>
    intro hnd
    exact (ih12 hnd).trans (ih23 (((hp12.map Prod.fst).nodup_iff).mp hnd))

/-- A successful association-list lookup exhibits a member of the
list. -/
theorem mem_of_lookup_eq_some {β : Type} {k : String} {x : β} :
    ∀ {p : List (String × β)}, List.lookup k p = some x → (k, x) ∈ p := by
  intro p
  induction p with
  | nil => intro h; cases h
  | cons hd tl ih =>
    intro h
    obtain ⟨kh, vh⟩ := hd
    cases hbeq : k == kh with
    | true =>
      have hk : k = kh := by simpa using hbeq
      simp [List.lookup, hbeq] at h
      subst hk h
      exact List.mem_cons_self _ _
    | false =>
      simp [List.lookup, hbeq] at h
      exact List.mem_cons_of_mem _ (ih h)

/-- The sorted key-name list is the same for any two permutations of
the parameter bag. -/
theorem sortedKeys_eq_of_perm {p₁ p₂ : List (String × Option GoValue)} (hp : p₁.Perm p₂) :
    List.insertionSort (fun a b : String => a ≤ b) (p₁.map Prod.fst) =
    List.insertionSort (fun a b : String => a ≤ b) (p₂.map Prod.fst) := by
  exact List.eq_of_perm_of_sorted
    (((List.perm_insertionSort _ _).trans (hp.map Prod.fst)).trans
      (List.perm_insertionSort _ _).symm)
    (List.sorted_insertionSort _ _) (List.sorted_insertionSort _ _)

/-- The canonical parameter list depends only on the content of the
bag, not its ordering. -/
theorem canonicalParams_perm {p₁ p₂ : List (String × Option GoValue)} (hp : p₁.Perm p₂)
    (hnd : (p₁.map Prod.fst).Nodup) : canonicalParams p₁ = canonicalParams p₂ := by
  unfold canonicalParams
  rw [sortedKeys_eq_of_perm hp]
  have hf : (fun k => match List.lookup k p₁ with
      | some (some v) => some (k, formatGoValue v)
      | _ => none) = (fun k => match List.lookup k p₂ with
      | some (some v) => some (k, formatGoValue v)
      | _ => none) := by
    funext k
    rw [lookup_eq_of_perm hp hnd]
  rw [hf]

/-- C7: `GenerateKey` is deterministic — two parameter bags with the
same name-to-value content in any insertion order produce the same
key — and every entry of the canonical form comes from a
present, non-null parameter, so absent or null-valued entries are
omitted before hashing. -/
theorem generateKey_canonicalization (c : Cache) (endpoint : String)
    (p₁ p₂ : List (String × Option GoValue)) (hp : p₁.Perm p₂)
    (hnd : (p₁.map Prod.fst).Nodup) :
    Cache.GenerateKey c endpoint p₁ = Cache.GenerateKey c endpoint p₂ ∧
    (∀ kv ∈ canonicalParams p₁, ∃ v, (kv.1, some v) ∈ p₁ ∧ kv.2 = formatGoValue v) := by
  constructor
  · unfold Cache.GenerateKey
    rw [canonicalParams_perm hp hnd]
  · intro kv hkv
    unfold canonicalParams at hkv
    obtain ⟨k, _hk, hf⟩ := List.mem_filterMap.mp hkv
    cases hl : List.lookup k p₁ with
    | none => rw [hl] at hf; cases hf
    | some ov =>
      cases ov with
      | none => rw [hl] at hf; cases hf
      | some v =>
        rw [hl] at hf
        simp only [Option.some.injEq] at hf
        subst hf
        exact ⟨v, mem_of_lookup_eq_some hl, rfl⟩

/-- Witness for C7 at a concrete three-entry bag (one null-valued)
and a rotation of it. -/
theorem generateKey_canonicalization_witness :
    Cache.GenerateKey ⟨"d", 60⟩ "/api/full-text-search"
      [("q", some (GoValue.str "x")), ("limit", some (GoValue.int 10)), ("offset", Option.none)] =
    Cache.GenerateKey ⟨"d", 60⟩ "/api/full-text-search"
      [("limit", some (GoValue.int 10)), ("offset", Option.none),
        ("q", some (GoValue.str "x"))] ∧
    (∀ kv ∈ canonicalParams
      [("q", some (GoValue.str "x")), ("limit", some (GoValue.int 10)), ("offset", Option.none)],
      ∃ v, (kv.1, some v) ∈
        ([("q", some (GoValue.str "x")), ("limit", some (GoValue.int 10)),
          ("offset", Option.none)] : List (String × Option GoValue)) ∧
        kv.2 = formatGoValue v) :=
  generateKey_canonicalization ⟨"d", 60⟩ "/api/full-text-search" _ _ (by decide) (by decide)

/-- Witness for C9: reader TTL 10, entry TTL 100, age 50: the entry is
served although it is older than the reader TTL. -/
theorem cache_ttl_from_metadata_witness :
    Cache.Get ⟨"d", 10⟩ 50
      (FileSys.mk (fun p => if p = dataPath "d" "k" then some [7] else none)
        (fun p => if p = metaPath "d" "k" then some (MetaContent.valid 0 100) else none)) "k" =
      (some [7], true,
        FileSys.mk (fun p => if p = dataPath "d" "k" then some [7] else none)
          (fun p => if p = metaPath "d" "k" then some (MetaContent.valid 0 100) else none)) := by
  exact (cache_ttl_from_metadata ⟨"d", 10⟩ 50 0 100 _ "k" [7]).1 (by decide) (by simp) (by simp)
    (by decide) (by decide)
